import Mathlib

/-!
Verification of the RAMSES frontend core (`data_structures.py`,
`field_handlers.py`): a shallow embedding of the AMR-header parse, the
oct-reading scan, the field-file offset indexer, the caching layer, parameter
parsing, chunk identification and the subset field filler, with theorems about
the claims of the specification.

Conventions: numpy integer arrays are modelled by `List Nat` / `List Int`;
per-(level, cpu) tables by `List (List Nat)` (rows are levels); Fortran record
streams by a list of remaining records plus a record-granular position counter;
exceptions by `Except`.  The external octree container (out of scope of the
sources under verification) is modelled by oracle functions carried in a
context structure.
-/

set_option autoImplicit false

namespace RamsesSpec

/-! ## AMR header oct counts (`RAMSESDomainFile._read_amr_header`) -/

/-- From `_read_amr_header`:
`self.local_oct_count = hvals['numbl'][self.ds.min_level:, self.domain_id - 1].sum()`.
`numbl` is the per-(level, cpu) oct-count table, rows indexed by level. -/
def local_oct_count (numbl : List (List Nat)) (min_level domain_id : Nat) : Nat :=
  ((numbl.drop min_level).map (fun row => row.getD (domain_id - 1) 0)).sum

/-- From `_read_amr_header`: entry `cpu` of
`self.total_oct_count = hvals['numbl'][self.ds.min_level:, :].sum(axis=0)`. -/
def total_oct_count (numbl : List (List Nat)) (min_level cpu : Nat) : Nat :=
  ((numbl.drop min_level).map (fun row => row.getD cpu 0)).sum

/-- The specification's wording of `total_oct_count`: the sum over ALL
refinement levels of that cpu's column of `numbl` (no `min_level` truncation).
Written from the spec, to be compared with the source-derived
`total_oct_count`. -/
def total_oct_count_spec (numbl : List (List Nat)) (cpu : Nat) : Nat :=
  (numbl.map (fun row => row.getD cpu 0)).sum

/-- Mapped sums over a list, re-expressed as a sum over positions. -/
theorem sum_map_eq_sum_range {α : Type} (f : α → Nat) (d : α) :
    ∀ ys : List α, (ys.map f).sum = ∑ i in Finset.range ys.length, f (ys.getD i d) := by
  intro ys
  induction ys with
  | nil => simp
  | cons a t ih =>
    rw [List.map_cons, List.sum_cons, List.length_cons, Finset.sum_range_succ']
    simp only [List.getD_cons_succ, List.getD_cons_zero]
    rw [ih]
    exact (Nat.add_comm _ _)

/-- Mapped sums over a dropped list, as a sum over the index interval
`[m, length)`. -/
theorem sum_map_drop_eq {α : Type} (f : α → Nat) (d : α) (xs : List α) (m : Nat) :
    ((xs.drop m).map f).sum = ∑ l in Finset.Ico m xs.length, f (xs.getD l d) := by
  rw [sum_map_eq_sum_range f d, Finset.sum_Ico_eq_sum_range, List.length_drop]
  refine Finset.sum_congr rfl ?_
  intro i _
  congr 1
  simp [List.getD_eq_getElem?_getD, List.getElem?_drop]

/-- C1 (amended): after the AMR-header parse, `local_oct_count` is the sum over
levels `≥ min_level` of this domain's column of `numbl`, and `total_oct_count`
at each cpu is likewise the sum over levels `≥ min_level` (not over all levels)
of that cpu's column. -/
theorem C1_oct_counts (numbl : List (List Nat)) (min_level domain_id cpu : Nat) :
    local_oct_count numbl min_level domain_id
        = ∑ l in Finset.Ico min_level numbl.length, (numbl.getD l []).getD (domain_id - 1) 0
      ∧ total_oct_count numbl min_level cpu
        = ∑ l in Finset.Ico min_level numbl.length, (numbl.getD l []).getD cpu 0 :=
  ⟨sum_map_drop_eq _ _ numbl min_level, sum_map_drop_eq _ _ numbl min_level⟩

/-- C1 (counterexample): for the header table `numbl = [[5], [3]]` with
`min_level = 1`, the code's `total_oct_count` for cpu 0 is `3`, not the
all-level column sum `8` required by the claim. -/
theorem C1_total_all_levels_counterexample :
    total_oct_count [[5], [3]] 1 0 ≠ total_oct_count_spec [[5], [3]] 0 := by
  decide

/-! ## Fold over per-(level, cpu) blocks with fatal errors

Both `_read_amr` and `FieldFileHandler.offset` iterate levels in `[0,
nlevelmax)` and cpus in `[0, nboundary + ncpu)` in order, aborting at the first
fatal error.  We model the loop as a fold in `Except`. -/

/-- The lexicographic (level, cpu) iteration order of both scans. -/
def loopPairs (nlevelmax ncols : Nat) : List (Nat × Nat) :=
  (List.range nlevelmax).flatMap (fun l => (List.range ncols).map (fun c => (l, c)))

/-- Left fold that stops at the first `.error`, like a Python loop whose body
may raise. -/
def foldSteps {σ ε β : Type} (f : σ → β → Except ε σ) : σ → List β → Except ε σ
  | s, [] => .ok s
  | s, b :: t =>
    match f s b with
    | .error e => .error e
    | .ok s2 => foldSteps f s2 t

/-- A property preserved by every successful step holds at the end of a
successful `foldSteps` run. -/
theorem foldSteps_preserve {σ ε β : Type} (P : σ → Prop) (f : σ → β → Except ε σ)
    (hf : ∀ s b s2, P s → f s b = .ok s2 → P s2) :
    ∀ (l : List β) (s s2 : σ), P s → foldSteps f s l = .ok s2 → P s2 := by
  intro l
  induction l with
  | nil =>
    intro s s2 hP h
    simp only [foldSteps, Except.ok.injEq] at h
    exact h ▸ hP
  | cons b t ih =>
    intro s s2 hP h
    cases hfb : f s b with
    | error e => simp [foldSteps, hfb] at h
    | ok s1 =>
      simp only [foldSteps, hfb] at h
      exact ih s1 s2 (hf s b s1 hP hfb) h

/-! ## Oct-reading scan (`RAMSESDomainFile._read_amr` / `_error_check`) -/

/-- A grid-center position, one rational per spatial axis. -/
abbrev Pos3 := ℚ × ℚ × ℚ

/-- Smallest element of a rational list (matches `np.min` on a nonempty
array; the sentinel `0` is never used on the scan's error path, where the
block holds `ng > 0` positions). -/
def listMin (xs : List ℚ) : ℚ :=
  match xs with
  | [] => 0
  | a :: t => t.foldl min a

/-- Largest element of a rational list (matches `np.max`, see `listMin`). -/
def listMax (xs : List ℚ) : ℚ :=
  match xs with
  | [] => 0
  | a :: t => t.foldl max a

/-- The diagnostics `_error_check` prints before raising `RuntimeError`:
requested vs. inserted counts, level, cpu, per-axis coordinate extents, the
domain bounding box and the applied coordinate shift `(nx, ny, nz)`. -/
structure OctreeErrorReport where
  requested : Nat
  inserted : Nat
  level : Nat
  cpu : Nat
  extent_x : ℚ × ℚ
  extent_y : ℚ × ℚ
  extent_z : ℚ × ℚ
  domain_left : Pos3
  domain_right : Pos3
  shift : Pos3
  deriving DecidableEq, Repr

/-- Context of `_read_amr`: the parsed header tables together with oracles for
the external octree container (`add`, `num_domains`) and for the oct positions
decoded from the stream for each (level, cpu) block (`posOf`). -/
structure AmrCtx where
  ncpu : Nat
  nboundary : Nat
  nlevelmax : Nat
  min_level : Nat
  numbl : List (List Nat)
  ngridbound : List Nat
  num_domains : Nat
  add : Nat → Nat → List Pos3 → Nat
  posOf : Nat → Nat → List Pos3
  dle : Pos3
  dre : Pos3
  nn : Pos3

/-- The nested helper `_ng(c, l)` of `_read_amr`: oct count of block
(level `l`, cpu `c`), from `numbl` for real cpus and from `ngridbound` (at the
source's index `c - ncpu + nboundary * l`) for boundary domains. -/
def ng_of (ctx : AmrCtx) (c l : Nat) : Nat :=
  if c < ctx.ncpu then (ctx.numbl.getD l []).getD c 0
  else ctx.ngridbound.getD (c - ctx.ncpu + ctx.nboundary * l) 0

/-- `_error_check(cpu, level, pos, n, ng, nn)`: returns normally when
`n == ng or cpu + 1 > oct_handler.num_domains`; any other mismatch raises after
printing the diagnostic report. -/
def error_check (ctx : AmrCtx) (cpu level n ng : Nat) (pos : List Pos3) :
    Except OctreeErrorReport Unit :=
  if n = ng ∨ cpu + 1 > ctx.num_domains then .ok ()
  else .error
    { requested := ng, inserted := n, level := level, cpu := cpu,
      extent_x := (listMin (pos.map (fun p => p.1)), listMax (pos.map (fun p => p.1))),
      extent_y := (listMin (pos.map (fun p => p.2.1)), listMax (pos.map (fun p => p.2.1))),
      extent_z := (listMin (pos.map (fun p => p.2.2)), listMax (pos.map (fun p => p.2.2))),
      domain_left := ctx.dle, domain_right := ctx.dre, shift := ctx.nn }

/-- One (level, cpu) iteration of the `_read_amr` loop body, acting on the
running `max_level`.  Blocks with `ng = 0` have no records and are skipped; for
`level ≥ min_level` the `ng` positions are handed to `oct_handler.add` and the
returned count is validated by `error_check`.  (The source's
`assert(pos.shape[0] == ng)` always holds there: `pos` is allocated with
exactly `ng` rows.) -/
def read_amr_step (ctx : AmrCtx) (max_level : Nat) (lc : Nat × Nat) :
    Except OctreeErrorReport Nat :=
  let level := lc.1
  let cpu := lc.2
  let ng := ng_of ctx cpu level
  if ng = 0 then .ok max_level
  else if ctx.min_level ≤ level then
    let pos := ctx.posOf level cpu
    let n := ctx.add (cpu + 1) (level - ctx.min_level) pos
    match error_check ctx cpu level n ng pos with
    | .error e => .error e
    | .ok _ => .ok (if 0 < n then max (level - ctx.min_level) max_level else max_level)
  else .ok max_level

/-- The full `_read_amr` scan: fold the loop body over all (level, cpu) pairs,
starting from `max_level = 0`. -/
def read_amr (ctx : AmrCtx) : Except OctreeErrorReport Nat :=
  foldSteps (read_amr_step ctx) 0 (loopPairs ctx.nlevelmax (ctx.nboundary + ctx.ncpu))

/-- The report produced for a failed block. -/
def mkReport (ctx : AmrCtx) (cpu level n ng : Nat) (pos : List Pos3) :
    OctreeErrorReport :=
  { requested := ng, inserted := n, level := level, cpu := cpu,
    extent_x := (listMin (pos.map (fun p => p.1)), listMax (pos.map (fun p => p.1))),
    extent_y := (listMin (pos.map (fun p => p.2.1)), listMax (pos.map (fun p => p.2.1))),
    extent_z := (listMin (pos.map (fun p => p.2.2)), listMax (pos.map (fun p => p.2.2))),
    domain_left := ctx.dle, domain_right := ctx.dre, shift := ctx.nn }

/-- C2: for a block with `level ≥ min_level` and oct count `ng > 0`, the scan
continues normally after inserting the block's positions if and only if the
container's insertion count `n` equals `ng` or `cpu + 1` exceeds the
container's domain count; in every other case the step yields the fatal
structural-integrity report (level, cpu, requested vs. inserted counts,
per-axis extents, domain bounding box, applied shift) and the scan stops there
instead of continuing. -/
theorem C2_structural_integrity (ctx : AmrCtx) (ml level cpu : Nat)
    (hmin : ctx.min_level ≤ level) (hng : 0 < ng_of ctx cpu level) :
    ((∃ ml2, read_amr_step ctx ml (level, cpu) = .ok ml2)
        ↔ (ctx.add (cpu + 1) (level - ctx.min_level) (ctx.posOf level cpu) = ng_of ctx cpu level
            ∨ cpu + 1 > ctx.num_domains))
      ∧ (¬ (ctx.add (cpu + 1) (level - ctx.min_level) (ctx.posOf level cpu) = ng_of ctx cpu level
            ∨ cpu + 1 > ctx.num_domains) →
          read_amr_step ctx ml (level, cpu)
              = .error (mkReport ctx cpu level
                  (ctx.add (cpu + 1) (level - ctx.min_level) (ctx.posOf level cpu))
                  (ng_of ctx cpu level) (ctx.posOf level cpu))
            ∧ ∀ rest, foldSteps (read_amr_step ctx) ml ((level, cpu) :: rest)
                = .error (mkReport ctx cpu level
                    (ctx.add (cpu + 1) (level - ctx.min_level) (ctx.posOf level cpu))
                    (ng_of ctx cpu level) (ctx.posOf level cpu))) := by
  have hng0 : ng_of ctx cpu level ≠ 0 := Nat.pos_iff_ne_zero.mp hng
  constructor
  · constructor
    · intro ⟨ml2, h⟩
      by_contra hc
      simp only [read_amr_step, hng0, if_false, if_neg, hmin, if_true, if_pos,
        error_check, hc, if_false] at h
      exact Except.noConfusion h
    · intro hc
      refine ⟨if 0 < ctx.add (cpu + 1) (level - ctx.min_level) (ctx.posOf level cpu)
          then max (level - ctx.min_level) ml else ml, ?_⟩
      simp only [read_amr_step, hng0, if_false, if_neg, hmin, if_true, if_pos,
        error_check, hc, if_true]
  · intro hc
    have hstep : read_amr_step ctx ml (level, cpu)
        = .error (mkReport ctx cpu level
            (ctx.add (cpu + 1) (level - ctx.min_level) (ctx.posOf level cpu))
            (ng_of ctx cpu level) (ctx.posOf level cpu)) := by
      simp only [read_amr_step, hng0, if_false, if_neg, hmin, if_true, if_pos,
        error_check, hc, if_false]
      rfl
    refine ⟨hstep, ?_⟩
    intro rest
    simp [foldSteps, hstep]

/-- A concrete scan context on which the container declines one oct of a block
it should accept: header declares `numbl[0][0] = 2` but `add` returns 1 for
domain 1 of a 1-domain container. -/
def amrCexCtx : AmrCtx :=
  { ncpu := 1, nboundary := 0, nlevelmax := 1, min_level := 0,
    numbl := [[2]], ngridbound := [], num_domains := 1,
    add := fun _ _ _ => 1,
    posOf := fun _ _ => [((1 : ℚ)/4, 1/4, 1/4), (3/4, 3/4, 3/4)],
    dle := (0, 0, 0), dre := (1, 1, 1), nn := (0, 0, 0) }

/-- C2 witness: on `amrCexCtx`, block (0, 0) fails the integrity check and the
scan aborts with the diagnostic report. -/
theorem C2_structural_integrity_witness :
    read_amr_step amrCexCtx 0 (0, 0)
        = .error (mkReport amrCexCtx 0 0 1 2 [((1 : ℚ)/4, 1/4, 1/4), (3/4, 3/4, 3/4)])
      ∧ read_amr amrCexCtx
        = .error (mkReport amrCexCtx 0 0 1 2 [((1 : ℚ)/4, 1/4, 1/4), (3/4, 3/4, 3/4)]) := by
  have h := C2_structural_integrity amrCexCtx 0 0 0 (by decide) (by decide)
  have hc : ¬ (amrCexCtx.add (0 + 1) (0 - amrCexCtx.min_level) (amrCexCtx.posOf 0 0)
      = ng_of amrCexCtx 0 0 ∨ 0 + 1 > amrCexCtx.num_domains) := by decide
  have h2 := h.2 hc
  refine ⟨h2.1, ?_⟩
  have h3 := h2.2 []
  have hpairs : loopPairs amrCexCtx.nlevelmax (amrCexCtx.nboundary + amrCexCtx.ncpu)
      = [(0, 0)] := by decide
  rw [read_amr, hpairs]
  exact h3

/-! ## Field-file offset scan (`FieldFileHandler.offset`)

The field file is a sequence of Fortran records.  The scan only ever consumes
whole records (two scalar header records per block, then payload records it
skips), so the stream is modelled at record granularity: the remaining records
(each reduced to the scalar it carries, irrelevant for payload records) plus a
position counter standing for `f.tell()`. -/

/-- A Fortran record stream at record granularity. -/
structure FStream where
  recs : List Nat
  pos : Nat
  deriving DecidableEq, Repr

/-- Read one record, returning its scalar value and the advanced stream
(`fpu.read_attrs` with a single scalar attribute). -/
def readRec (s : FStream) : Option (Nat × FStream) :=
  match s.recs with
  | [] => none
  | v :: rest => some (v, { recs := rest, pos := s.pos + 1 })

/-- `fpu.skip(f, n)`: consume `n` records without materializing payloads;
fails at end of stream. -/
def skipRecs : Nat → FStream → Option FStream
  | 0, s => some s
  | n + 1, s =>
    match readRec s with
    | none => none
    | some (_, s2) => skipRecs n s2

theorem skipRecs_pos (n : Nat) :
    ∀ (s s2 : FStream), skipRecs n s = some s2 → s2.pos = s.pos + n := by
  induction n with
  | zero =>
    intro s s2 h
    simp only [skipRecs, Option.some.injEq] at h
    simp [← h]
  | succ m ih =>
    intro s s2 h
    cases hr : s.recs with
    | nil => simp [skipRecs, readRec, hr] at h
    | cons v rest =>
      simp only [skipRecs, readRec, hr] at h
      have h2 : s2.pos = s.pos + 1 + m := ih _ _ h
      omega

/-- Static parameters of one offset scan: the handler's header-attribute count,
the variable count, dimensionality, the AMR header's level/cpu/boundary counts,
the dataset's minimum level and the handler's own (1-indexed) domain id. -/
structure OffsetParams where
  nattrs : Nat
  nvar : Nat
  ndim : Nat
  nlevelmax : Nat
  ncpu : Nat
  nboundary : Nat
  min_level : Nat
  domain_id : Nat
  deriving DecidableEq, Repr

/-- Running state of the offset scan: the stream plus the per-level offset
array (`-1` sentinel) and cell-count array. -/
structure OffsetScanState where
  stream : FStream
  offset : List Int
  level_count : List Nat
  deriving DecidableEq, Repr

/-- Fatal outcomes of the scan: truncated file, or the `assert` that the
block's stored level number equals the loop-implied level plus one. -/
inductive OffsetScanError where
  | eof : OffsetScanError
  | levelMismatch (loopLevel fileLevel : Nat) : OffsetScanError
  deriving DecidableEq, Repr

/-- One (level, cpu) iteration of the `offset` scan: read the
`(file_ilevel, file_ncache)` header pair; a zero cache count means no payload
and the loop continues; otherwise assert `file_ilevel == level + 1`, record
`f.tell()` and the cache count when `cpu + 1 == domain_id and level >=
min_level`, and unconditionally skip the `2**ndim * nvar` payload records. -/
def offset_block_step (p : OffsetParams) (st : OffsetScanState) (lc : Nat × Nat) :
    Except OffsetScanError OffsetScanState :=
  let level := lc.1
  let cpu := lc.2
  match readRec st.stream with
  | none => .error .eof
  | some (file_ilevel, s1) =>
    match readRec s1 with
    | none => .error .eof
    | some (file_ncache, s2) =>
      if file_ncache = 0 then .ok { st with stream := s2 }
      else if file_ilevel ≠ level + 1 then .error (.levelMismatch level file_ilevel)
      else
        let st1 : OffsetScanState :=
          if cpu + 1 = p.domain_id ∧ p.min_level ≤ level then
            { stream := s2,
              offset := st.offset.set (level - p.min_level) (Int.ofNat s2.pos),
              level_count := st.level_count.set (level - p.min_level) file_ncache }
          else { st with stream := s2 }
        match skipRecs (2 ^ p.ndim * p.nvar) st1.stream with
        | none => .error .eof
        | some s3 => .ok { st1 with stream := s3 }

/-- The full `offset` computation: skip the `len(attrs)` header records, start
from all-`-1` offsets and all-zero counts of length `nlevelmax - min_level`,
and fold the block step over all (level, cpu) pairs. -/
def offset_scan (p : OffsetParams) (f0 : FStream) :
    Except OffsetScanError OffsetScanState :=
  match skipRecs p.nattrs f0 with
  | none => .error .eof
  | some f =>
    let n_levels := p.nlevelmax - p.min_level
    foldSteps (offset_block_step p)
      { stream := f,
        offset := List.replicate n_levels (-1),
        level_count := List.replicate n_levels 0 }
      (loopPairs p.nlevelmax (p.nboundary + p.ncpu))

/-- C4: on a block whose header pair reads `(level + 1, ncache)` with
`ncache ≠ 0`, a successful step always advances the stream exactly past the two
header records and the `2^ndim * nvar` payload records — regardless of block
ownership — and it records the post-header stream position as the level's
offset and `ncache` as the level's cell count exactly when `cpu + 1` equals the
handler's domain id and `level ≥ min_level`, leaving both arrays untouched
otherwise. -/
theorem C4_offset_block (p : OffsetParams) (st st2 : OffsetScanState)
    (level cpu ncache : Nat) (rest : List Nat)
    (hrecs : st.stream.recs = (level + 1) :: ncache :: rest)
    (hnc : ncache ≠ 0)
    (h : offset_block_step p st (level, cpu) = .ok st2) :
    st2.stream.pos = st.stream.pos + 2 + 2 ^ p.ndim * p.nvar
      ∧ (cpu + 1 = p.domain_id ∧ p.min_level ≤ level →
          st2.offset = st.offset.set (level - p.min_level) (Int.ofNat (st.stream.pos + 2))
            ∧ st2.level_count = st.level_count.set (level - p.min_level) ncache)
      ∧ (¬ (cpu + 1 = p.domain_id ∧ p.min_level ≤ level) →
          st2.offset = st.offset ∧ st2.level_count = st.level_count) := by
  simp only [offset_block_step, readRec, hrecs, hnc, if_false, if_neg, Ne,
    eq_self_iff_true, not_true, not_false_iff] at h
  by_cases hown : cpu + 1 = p.domain_id ∧ p.min_level ≤ level
  · simp only [if_pos hown] at h
    cases hskip : skipRecs (2 ^ p.ndim * p.nvar)
        ({ recs := rest, pos := st.stream.pos + 1 + 1 : FStream}) with
    | none => rw [hskip] at h; exact Except.noConfusion h
    | some s3 =>
      rw [hskip] at h
      have hpos : s3.pos = st.stream.pos + 1 + 1 + 2 ^ p.ndim * p.nvar :=
        skipRecs_pos _ _ _ hskip
      simp only [Except.ok.injEq] at h
      subst h
      refine ⟨by simpa [Nat.add_assoc] using hpos, fun _ => ⟨rfl, rfl⟩,
        fun hcon => absurd hown hcon⟩
  · simp only [if_neg hown] at h
    cases hskip : skipRecs (2 ^ p.ndim * p.nvar)
        ({ recs := rest, pos := st.stream.pos + 1 + 1 : FStream}) with
    | none => rw [hskip] at h; exact Except.noConfusion h
    | some s3 =>
      rw [hskip] at h
      have hpos : s3.pos = st.stream.pos + 1 + 1 + 2 ^ p.ndim * p.nvar :=
        skipRecs_pos _ _ _ hskip
      simp only [Except.ok.injEq] at h
      subst h
      exact ⟨by simpa [Nat.add_assoc] using hpos, fun hcon => absurd hcon hown,
        fun _ => ⟨rfl, rfl⟩⟩

/-- C6: a block whose cache count is zero is passed over with no further check
(the level-number assert is never evaluated, whatever `file_ilevel` holds), the
arrays untouched and only the two header records consumed; a block with a
nonzero cache count whose stored level number differs from the loop-implied
`level + 1` makes the scan fail fatally with the level-mismatch report. -/
theorem C6_cache_and_level_guard (p : OffsetParams) (st : OffsetScanState)
    (level cpu file_ilevel ncache : Nat) (rest : List Nat)
    (hrecs : st.stream.recs = file_ilevel :: ncache :: rest) :
    (ncache = 0 →
        offset_block_step p st (level, cpu)
          = .ok { st with stream := { recs := rest, pos := st.stream.pos + 2 } })
      ∧ (ncache ≠ 0 → file_ilevel ≠ level + 1 →
          offset_block_step p st (level, cpu) = .error (.levelMismatch level file_ilevel)) := by
  constructor
  · intro h0
    simp only [offset_block_step, readRec, hrecs]
    rw [if_pos h0]
  · intro hnc hlev
    simp only [offset_block_step, readRec, hrecs]
    rw [if_neg hnc, if_pos hlev]

/-- `getD` after `set` at the written index, when in range. -/
theorem getD_set_self {α : Type} (l : List α) (i : Nat) (hi : i < l.length) (v d : α) :
    (l.set i v).getD i d = v := by
  simp [List.getD_eq_getElem?_getD, List.getElem?_set_self, hi]

/-- `getD` after `set` at a different index. -/
theorem getD_set_other {α : Type} (l : List α) (i j : Nat) (hij : i ≠ j) (v d : α) :
    (l.set i v).getD j d = l.getD j d := by
  simp [List.getD_eq_getElem?_getD, List.getElem?_set_ne, hij]

/-- The C9 invariant: both arrays have length `n_levels` and the `-1` offset
sentinel stands at an index exactly when that level's cell count is zero. -/
def offsetArraysGood (n_levels : Nat) (st : OffsetScanState) : Prop :=
  st.offset.length = n_levels ∧ st.level_count.length = n_levels
    ∧ ∀ i, (st.offset.getD i (-1) = -1 ↔ st.level_count.getD i 0 = 0)

theorem offset_block_step_preserves_good (p : OffsetParams) (n_levels : Nat) :
    ∀ (st : OffsetScanState) (lc : Nat × Nat) (st2 : OffsetScanState),
      offsetArraysGood n_levels st → offset_block_step p st lc = .ok st2 →
      offsetArraysGood n_levels st2 := by
  intro st lc st2 hgood h
  obtain ⟨hlen1, hlen2, hiff⟩ := hgood
  rcases hr1 : readRec st.stream with _ | ⟨file_ilevel, s1⟩
  · simp [offset_block_step, hr1] at h
  rcases hr2 : readRec s1 with _ | ⟨file_ncache, s2⟩
  · simp [offset_block_step, hr1, hr2] at h
  by_cases h0 : file_ncache = 0
  · simp only [offset_block_step, hr1, hr2, h0, if_true, if_pos, Except.ok.injEq] at h
    subst h
    exact ⟨hlen1, hlen2, hiff⟩
  by_cases hlev : file_ilevel ≠ lc.1 + 1
  · simp [offset_block_step, hr1, hr2, h0, hlev] at h
  simp only [offset_block_step, hr1, hr2] at h
  rw [if_neg h0, if_neg hlev] at h
  by_cases hown : lc.2 + 1 = p.domain_id ∧ p.min_level ≤ lc.1
  · rw [if_pos hown] at h
    cases hskip : skipRecs (2 ^ p.ndim * p.nvar) s2 with
    | none => rw [hskip] at h; exact Except.noConfusion h
    | some s3 =>
      rw [hskip] at h
      simp only [Except.ok.injEq] at h
      subst h
      refine ⟨by simpa using hlen1, by simpa using hlen2, ?_⟩
      intro i
      by_cases hi : lc.1 - p.min_level = i
      · subst hi
        by_cases hrange : lc.1 - p.min_level < st.offset.length
        · rw [getD_set_self _ _ hrange, getD_set_self _ _ (by omega)]
          constructor
          · intro habs
            exact absurd habs (by simp [Int.ofNat])
          · intro habs
            exact absurd habs h0
        · rw [List.set_eq_of_length_le (by omega), List.set_eq_of_length_le (by omega)]
          exact hiff _
      · rw [getD_set_other _ _ _ hi, getD_set_other _ _ _ hi]
        exact hiff i
  · rw [if_neg hown] at h
    cases hskip : skipRecs (2 ^ p.ndim * p.nvar) s2 with
    | none => rw [hskip] at h; exact Except.noConfusion h
    | some s3 =>
      rw [hskip] at h
      simp only [Except.ok.injEq] at h
      subst h
      exact ⟨hlen1, hlen2, hiff⟩

/-- C9: whenever the offset computation completes, the offset and cell-count
arrays both have length `nlevelmax - min_level`, and an index holds the `-1`
offset sentinel exactly when its cell count is zero. -/
theorem C9_offset_levelcount_invariant (p : OffsetParams) (f0 : FStream)
    (st : OffsetScanState) (h : offset_scan p f0 = .ok st) :
    st.offset.length = p.nlevelmax - p.min_level
      ∧ st.level_count.length = p.nlevelmax - p.min_level
      ∧ ∀ i, (st.offset.getD i (-1) = -1 ↔ st.level_count.getD i 0 = 0) := by
  rcases hskip : skipRecs p.nattrs f0 with _ | f
  · simp [offset_scan, hskip] at h
  rw [offset_scan, hskip] at h
  refine foldSteps_preserve (offsetArraysGood (p.nlevelmax - p.min_level))
    (offset_block_step p) (offset_block_step_preserves_good p _) _ _ _ ?_ h
  refine ⟨List.length_replicate _ _, List.length_replicate _ _, ?_⟩
  intro i
  by_cases hi : i < p.nlevelmax - p.min_level
  · rw [List.getD_eq_getElem?_getD, List.getD_eq_getElem?_getD]
    simp [List.getElem?_replicate, hi]
  · rw [List.getD_eq_getElem?_getD, List.getD_eq_getElem?_getD,
      List.getElem?_eq_none (by simpa using Nat.le_of_not_lt hi),
      List.getElem?_eq_none (by simpa using Nat.le_of_not_lt hi)]
    simp

/-- Concrete scan parameters for the witnesses: a 1D, 1-variable, 1-level,
1-cpu field file belonging to domain 1, with no header block. -/
def offsetWitParams : OffsetParams :=
  { nattrs := 0, nvar := 1, ndim := 1, nlevelmax := 1, ncpu := 1,
    nboundary := 0, min_level := 0, domain_id := 1 }

/-- C4 witness: on the stream `[1, 4, 9, 9]` the block (0, 0) belongs to
domain 1, so its offset (position 2, right after the header pair) and cell
count 4 are recorded, and the stream advances past the 2 payload records. -/
theorem C4_offset_block_witness :
    ({ stream := { recs := [], pos := 4 }, offset := [2], level_count := [4] }
          : OffsetScanState).stream.pos
        = ({ stream := { recs := [1, 4, 9, 9], pos := 0 }, offset := [-1], level_count := [0] }
          : OffsetScanState).stream.pos + 2 + 2 ^ (1 : Nat) * 1
      ∧ ([(2 : Int)] = ([-1] : List Int).set 0 (Int.ofNat 2)
          ∧ [(4 : Nat)] = ([0] : List Nat).set 0 4) := by
  have h := C4_offset_block offsetWitParams
    { stream := { recs := [1, 4, 9, 9], pos := 0 }, offset := [-1], level_count := [0] }
    { stream := { recs := [], pos := 4 }, offset := [2], level_count := [4] }
    0 0 4 [9, 9] (by decide) (by decide) rfl
  exact ⟨h.1, h.2.1 (by decide)⟩

/-- C6 witness: a zero-cache block is passed over whatever its stored level
number, and a nonzero-cache block with stored level 3 in loop level 0 aborts
with the level-mismatch report. -/
theorem C6_cache_and_level_guard_witness :
    offset_block_step offsetWitParams
        { stream := { recs := [7, 0, 5], pos := 3 }, offset := [-1], level_count := [0] } (0, 0)
        = .ok { stream := { recs := [5], pos := 5 }, offset := [-1], level_count := [0] }
      ∧ offset_block_step offsetWitParams
        { stream := { recs := [3, 4], pos := 0 }, offset := [-1], level_count := [0] } (0, 0)
        = .error (.levelMismatch 0 3) := by
  refine ⟨?_, ?_⟩
  · exact (C6_cache_and_level_guard offsetWitParams
      { stream := { recs := [7, 0, 5], pos := 3 }, offset := [-1], level_count := [0] }
      0 0 7 0 [5] rfl).1 rfl
  · exact (C6_cache_and_level_guard offsetWitParams
      { stream := { recs := [3, 4], pos := 0 }, offset := [-1], level_count := [0] }
      0 0 3 4 [] rfl).2 (by decide) (by decide)

/-- C9 witness: the completed scan of the stream `[1, 4, 9, 9]` yields
`offset = [2]` and `level_count = [4]`, same length and pointwise-matched
sentinels. -/
theorem C9_offset_levelcount_witness :
    ([(2 : Int)] : List Int).length = 1 ∧ ([(4 : Nat)] : List Nat).length = 1
      ∧ ∀ i, (([(2 : Int)] : List Int).getD i (-1) = -1
          ↔ ([(4 : Nat)] : List Nat).getD i 0 = 0) :=
  C9_offset_levelcount_invariant offsetWitParams { recs := [1, 4, 9, 9], pos := 0 }
    { stream := { recs := [], pos := 4 }, offset := [2], level_count := [4] } rfl

/-! ## Caching of the offset computation (`offset` / `level_count` properties) -/

/-- The handler's lazily computed attributes `_offset` and `_level_count`
(`getattr(self, '_offset', None)`-style absent-or-`None` slots). -/
structure HandlerCache where
  off_cache : Option (List Int)
  lvl_cache : Option (List Nat)
  deriving DecidableEq, Repr

/-- The `offset` property: a present `_offset` is returned as-is with no file
access; otherwise the file is opened (counted by the third component), the
scan runs, and both `_offset` and `_level_count` are stored. -/
def offset_prop (p : OffsetParams) (f0 : FStream) (h : HandlerCache) :
    Except OffsetScanError (List Int × HandlerCache × Nat) :=
  match h.off_cache with
  | some o => .ok (o, h, 0)
  | none =>
    match offset_scan p f0 with
    | .error e => .error e
    | .ok st =>
      .ok (st.offset,
        { off_cache := some st.offset, lvl_cache := some st.level_count }, 1)

/-- The `level_count` property: a present `_level_count` is returned with no
file access; otherwise the `offset` property is triggered and whatever
`_level_count` it left behind is returned. -/
def level_count_prop (p : OffsetParams) (f0 : FStream) (h : HandlerCache) :
    Except OffsetScanError (Option (List Nat) × HandlerCache × Nat) :=
  match h.lvl_cache with
  | some lc => .ok (some lc, h, 0)
  | none =>
    match offset_prop p f0 h with
    | .error e => .error e
    | .ok (_, h2, io) => .ok (h2.lvl_cache, h2, io)

/-- C5: offset computation is idempotent.  After a first successful `offset`
access, a second access returns the identical offset array, leaves the cache
unchanged and opens no file; and after any successful `level_count` access a
repeated access likewise returns the identical cell-count array with no file
access, so the scan runs at most once. -/
theorem C5_offset_idempotent (p : OffsetParams) (f0 : FStream) (h h2 : HandlerCache)
    (o : List Int) (io : Nat)
    (hfirst : offset_prop p f0 h = .ok (o, h2, io)) :
    offset_prop p f0 h2 = .ok (o, h2, 0)
      ∧ ∀ (v : Option (List Nat)) (h3 : HandlerCache) (io2 : Nat),
          level_count_prop p f0 h = .ok (v, h3, io2) →
          level_count_prop p f0 h3 = .ok (v, h3, 0) := by
  have hsecond : offset_prop p f0 h2 = .ok (o, h2, 0) := by
    cases hco : h.off_cache with
    | some o0 =>
      simp only [offset_prop, hco, Except.ok.injEq, Prod.mk.injEq] at hfirst
      obtain ⟨ho, hh, _⟩ := hfirst
      subst ho
      rw [← hh]
      simp [offset_prop, hco]
    | none =>
      cases hsc : offset_scan p f0 with
      | error e => simp [offset_prop, hco, hsc] at hfirst
      | ok st =>
        simp only [offset_prop, hco, hsc, Except.ok.injEq, Prod.mk.injEq] at hfirst
        obtain ⟨ho, hh, _⟩ := hfirst
        subst ho
        rw [← hh]
        simp [offset_prop]
  refine ⟨hsecond, ?_⟩
  intro v h3 io2 hlc
  cases hlv : h.lvl_cache with
  | some lc =>
    simp only [level_count_prop, hlv, Except.ok.injEq, Prod.mk.injEq] at hlc
    obtain ⟨hv, hh, _⟩ := hlc
    subst hv
    rw [← hh]
    simp [level_count_prop, hlv]
  | none =>
    simp only [level_count_prop, hlv, hfirst, Except.ok.injEq, Prod.mk.injEq] at hlc
    obtain ⟨hv, hh, _⟩ := hlc
    subst hv
    subst hh
    cases hlv2 : h2.lvl_cache with
    | some lc2 => simp [level_count_prop, hlv2]
    | none => simp [level_count_prop, hlv2, hsecond]

/-- C5 witness: a second `offset` access on the cache left by the first access
of the `[1, 4, 9, 9]` stream returns `[2]` with zero file opens, and likewise
`level_count` returns `[4]` with zero file opens. -/
theorem C5_offset_idempotent_witness :
    offset_prop offsetWitParams { recs := [1, 4, 9, 9], pos := 0 }
        { off_cache := some [2], lvl_cache := some [4] }
        = .ok ([2], { off_cache := some [2], lvl_cache := some [4] }, 0)
      ∧ level_count_prop offsetWitParams { recs := [1, 4, 9, 9], pos := 0 }
        { off_cache := some [2], lvl_cache := some [4] }
        = .ok (some [4], { off_cache := some [2], lvl_cache := some [4] }, 0) := by
  have h := C5_offset_idempotent offsetWitParams { recs := [1, 4, 9, 9], pos := 0 }
    { off_cache := none, lvl_cache := none }
    { off_cache := some [2], lvl_cache := some [4] } [2] 1 rfl
  exact ⟨h.1, h.2 (some [4]) { off_cache := some [2], lvl_cache := some [4] } 1 rfl⟩

/-! ## Ordering/bounding-box gate (`_parse_parameter_file`,
`_initialize_oct_handler`) -/

/-- A user-supplied bounding box (two corner points).  A supplied box is a
nonempty Python sequence, hence truthy, so the source's `self._bbox` truthiness
test coincides with presence. -/
structure RamsesBBox where
  left : Pos3
  right : Pos3
  deriving DecidableEq, Repr

/-- The fatal error of `_parse_parameter_file`'s compatibility gate
(`NotImplementedError` naming the unsupported ordering). -/
inductive RamsesLoadError where
  | unsupportedOrdering (ordering : String) : RamsesLoadError
  deriving DecidableEq, Repr

/-- The gate in `_parse_parameter_file`:
`if rheader['ordering type'] != 'hilbert' and self._bbox: raise ...`. -/
def parse_parameter_file (ordering : String) (bbox : Option RamsesBBox) :
    Except RamsesLoadError Unit :=
  if ordering ≠ "hilbert" ∧ bbox.isSome then .error (.unsupportedOrdering ordering)
  else .ok ()

/-- Domain selection in `_initialize_oct_handler`: with a bounding box the
Hilbert-key lookup `get_cpu_list` (external, `hilbert.py`) restricts the cpu
list; without one `cpu_list = range(ncpu)`, and the domain readers are built
for domain ids `i + 1`. -/
def initialize_cpu_list (ncpu : Nat) (bbox : Option RamsesBBox)
    (get_cpu_list : RamsesBBox → List Nat) : List Nat :=
  match bbox with
  | some bb => get_cpu_list bb
  | none => List.range ncpu

/-- The dataset-open pipeline reduced to the stages C7 is about: parameter
parsing runs first; only if it succeeds does index initialization select the
domains and open one AMR file per selected domain (counted by the second
component; a parse failure opens no AMR or field file). -/
def load_dataset (ordering : String) (ncpu : Nat) (bbox : Option RamsesBBox)
    (get_cpu_list : RamsesBBox → List Nat) :
    Except RamsesLoadError (List Nat) × Nat :=
  match parse_parameter_file ordering bbox with
  | .error e => (.error e, 0)
  | .ok _ =>
    let domain_ids := (initialize_cpu_list ncpu bbox get_cpu_list).map (fun i => i + 1)
    (.ok domain_ids, domain_ids.length)

/-- C7: a declared ordering other than "hilbert" together with a supplied
bounding box fails with the unsupported-ordering error during parameter
parsing, before any AMR or field file is opened (zero files opened); with no
bounding box no such error is raised and every domain id `1..ncpu` is used. -/
theorem C7_unsupported_ordering (ordering : String) (ncpu : Nat)
    (bbox : Option RamsesBBox) (g : RamsesBBox → List Nat) :
    (ordering ≠ "hilbert" → bbox.isSome →
        load_dataset ordering ncpu bbox g = (.error (.unsupportedOrdering ordering), 0))
      ∧ (bbox = none →
          load_dataset ordering ncpu bbox g
            = (.ok ((List.range ncpu).map (fun i => i + 1)), ncpu)) := by
  constructor
  · intro hord hsome
    rw [load_dataset, parse_parameter_file, if_pos ⟨hord, hsome⟩]
  · intro hnone
    subst hnone
    rw [load_dataset, parse_parameter_file,
      if_neg (by simp : ¬ (ordering ≠ "hilbert" ∧ (none : Option RamsesBBox).isSome))]
    simp [initialize_cpu_list]

/-- C7 witness: ordering "planar" with a box fails with zero files opened;
ordering "planar" without a box selects domains 1 and 2 of a 2-cpu dataset. -/
theorem C7_unsupported_ordering_witness :
    load_dataset "planar" 2 (some { left := (0, 0, 0), right := (1, 1, 1) }) (fun _ => [])
        = (.error (.unsupportedOrdering "planar"), 0)
      ∧ load_dataset "planar" 2 none (fun _ => []) = (.ok [1, 2], 2) := by
  constructor
  · exact (C7_unsupported_ordering "planar" 2 _ _).1 (by decide) rfl
  · have h := (C7_unsupported_ordering "planar" 2 none (fun _ => [])).2 rfl
    simpa using h

/-! ## Inclusion test and chunk identification (`included`,
`_identify_base_chunk`) -/

/-- A selection predicate as the domain reader sees it: only its optional
`domain_id` attribute matters to `included`; everything else is consulted only
through the container oracle. -/
structure SelectorModel where
  domain_id : Option Nat

/-- A domain reader with its populated octree container, reduced to what
`included` consults: the reader's 1-indexed `domain_id` and the container's
`domain_identify` oracle. -/
structure DomainModel where
  domain_id : Nat
  identify : SelectorModel → List Nat

/-- `RAMSESDomainFile.included`, also reporting (second component) whether the
octree container's `domain_identify` was consulted. -/
def included_traced (dom : DomainModel) (sel : SelectorModel) : Bool × Bool :=
  match sel.domain_id with
  | some did => (did == dom.domain_id, false)
  | none => ((dom.identify sel).contains dom.domain_id, true)

/-- `included`'s boolean result. -/
def included (dom : DomainModel) (sel : SelectorModel) : Bool :=
  (included_traced dom sel).1

/-- `_identify_base_chunk`: one `RAMSESDomainSubset` work unit per domain
passing `included`; a unit is identified here with its domain reader. -/
def identify_base_chunk (domains : List DomainModel) (sel : SelectorModel) :
    List DomainModel :=
  domains.filter (fun dom => included dom sel)

theorem count_filter_map_nodup (sel : SelectorModel) :
    ∀ domains : List DomainModel, (domains.map (fun x => x.domain_id)).Nodup →
      ∀ d ∈ domains,
        ((domains.filter (fun dom => included dom sel)).map
            (fun x => x.domain_id)).count d.domain_id
          = if included d sel then 1 else 0 := by
  intro domains
  induction domains with
  | nil => intro _ d hd; cases hd
  | cons x t ih =>
    intro hnd d hd
    have hx : x.domain_id ∉ t.map (fun y => y.domain_id) :=
      (List.nodup_cons.mp (by simpa using hnd)).1
    have hnd2 : (t.map (fun y => y.domain_id)).Nodup :=
      (List.nodup_cons.mp (by simpa using hnd)).2
    have hsub : ((t.filter (fun dom => included dom sel)).map (fun y => y.domain_id)).Sublist
        (t.map (fun y => y.domain_id)) := (List.filter_sublist t).map _
    rcases List.mem_cons.mp hd with hdx | hdt
    · subst hdx
      have hnot : d.domain_id ∉ (t.filter (fun dom => included dom sel)).map
          (fun y => y.domain_id) := fun hmem => hx (hsub.subset hmem)
      have hcount0 : ((t.filter (fun dom => included dom sel)).map
          (fun y => y.domain_id)).count d.domain_id = 0 := List.count_eq_zero.mpr hnot
      by_cases hI : included d sel
      · simp [List.filter_cons, hI, hcount0, List.count_cons]
      · simp [List.filter_cons, hI, hcount0]
    · have hne : x.domain_id ≠ d.domain_id := by
        intro he
        exact hx (he ▸ List.mem_map_of_mem (fun y => y.domain_id) hdt)
      have ht := ih hnd2 d hdt
      by_cases hI : included x sel
      · simpa [List.filter_cons, hI, List.count_cons, hne] using ht
      · simpa [List.filter_cons, hI] using ht

/-- C8: under one data-access request, the subset work-unit list contains
exactly one unit for each domain whose inclusion test against the selection
succeeds, and a domain failing the test (in particular one whose octree
container reports no overlapping oct) is absent from the list rather than
present as an empty unit. -/
theorem C8_chunk_units (domains : List DomainModel) (sel : SelectorModel)
    (hnd : (domains.map (fun x => x.domain_id)).Nodup)
    (d : DomainModel) (hd : d ∈ domains) :
    ((identify_base_chunk domains sel).map (fun x => x.domain_id)).count d.domain_id
        = (if included d sel then 1 else 0)
      ∧ (d.domain_id ∈ (identify_base_chunk domains sel).map (fun x => x.domain_id)
          ↔ included d sel = true) := by
  have hc := count_filter_map_nodup sel domains hnd d hd
  refine ⟨hc, ?_, ?_⟩
  · intro hmem
    have hpos := List.count_pos_iff.mpr hmem
    simp only [identify_base_chunk] at hpos
    rw [hc] at hpos
    by_cases hI : included d sel
    · exact hI
    · simp [hI] at hpos
  · intro hI
    apply List.count_pos_iff.mp
    simp only [identify_base_chunk]
    rw [hc, if_pos hI]
    exact Nat.zero_lt_one

/-- C8 witness: with a selector carrying no `domain_id` and containers
identifying only domain 1, the chunk list holds exactly one unit for domain 1
and none for domain 2. -/
theorem C8_chunk_units_witness :
    ((identify_base_chunk
          [{ domain_id := 1, identify := fun _ => [1] },
           { domain_id := 2, identify := fun _ => [1] }]
          { domain_id := none }).map (fun x => x.domain_id)).count 1 = 1
      ∧ ((identify_base_chunk
          [{ domain_id := 1, identify := fun _ => [1] },
           { domain_id := 2, identify := fun _ => [1] }]
          { domain_id := none }).map (fun x => x.domain_id)).count 2 = 0 := by
  have h1 := (C8_chunk_units
    [{ domain_id := 1, identify := fun _ => [1] },
     { domain_id := 2, identify := fun _ => [1] }]
    { domain_id := none } (by simp)
    { domain_id := 1, identify := fun _ => [1] } (by simp)).1
  have h2 := (C8_chunk_units
    [{ domain_id := 1, identify := fun _ => [1] },
     { domain_id := 2, identify := fun _ => [1] }]
    { domain_id := none } (by simp)
    { domain_id := 2, identify := fun _ => [1] } (by simp)).1
  have e1 : included { domain_id := 1, identify := fun _ => [1] }
      { domain_id := none } = true := rfl
  have e2 : included { domain_id := 2, identify := fun _ => [1] }
      { domain_id := none } = false := rfl
  constructor
  · rw [h1, e1]
    simp
  · rw [h2, e2]
    simp

/-- C10: a selector carrying a `domain_id` attribute is decided by comparing it
with the reader's own domain id — true exactly on equality — and the octree
container's `domain_identify` is never consulted; a selector without one is
decided by the container's answer. -/
theorem C10_selector_domain_id (dom : DomainModel) (sel : SelectorModel) :
    (∀ did, sel.domain_id = some did →
        (included dom sel = true ↔ did = dom.domain_id)
          ∧ (included_traced dom sel).2 = false)
      ∧ (sel.domain_id = none →
          (included_traced dom sel).2 = true
            ∧ included dom sel = (dom.identify sel).contains dom.domain_id) := by
  constructor
  · intro did hdid
    constructor
    · simp [included, included_traced, hdid]
    · simp [included_traced, hdid]
  · intro hnone
    constructor
    · simp [included_traced, hnone]
    · simp [included, included_traced, hnone]

/-- C10 witness: a selector pinned to domain 2 is rejected by reader 1 with the
container unconsulted; a selector without a `domain_id` consults the
container. -/
theorem C10_selector_domain_id_witness :
    included { domain_id := 1, identify := fun _ => [] } { domain_id := some 2 } = false
      ∧ (included_traced { domain_id := 1, identify := fun _ => [] }
          { domain_id := some 2 }).2 = false
      ∧ (included_traced { domain_id := 1, identify := fun _ => [] }
          { domain_id := none }).2 = true := by
  have h1 := (C10_selector_domain_id
    { domain_id := 1, identify := fun _ => [] } { domain_id := some 2 }).1 2 rfl
  have h2 := (C10_selector_domain_id
    { domain_id := 1, identify := fun _ => [] } { domain_id := none }).2 rfl
  refine ⟨?_, h1.2, h2.1⟩
  cases hI : included { domain_id := 1, identify := fun _ => [] } { domain_id := some 2 }
  · rfl
  · exact absurd (h1.1.mp hI) (by decide)

/-! ## Subset field filler (`RAMSESDomainSubset.fill`) -/

/-- Input of one `fill` call: the dataset dimensionality, the handler's
positional field-name list, the octree container's answers for this
(selection, domain) pair — `count_oct_cells` and the three parallel index
arrays of `file_index_octs` — the handler's per-level offsets (`-1` sentinel)
and cell counts, and the field-file contents (`content r j` is the `j`-th
value of the record at record position `r`). -/
structure FillInput where
  ndim : Nat
  all_fields : List String
  cell_count : Nat
  levels : List Nat
  cell_inds : List Nat
  file_inds : List Nat
  offsets : List Int
  level_counts : List Nat
  content : Nat → Nat → ℚ

/-- Modelled from the spec: `fill_level(level, levels, cell_indices,
file_indices, dest_map, src_map)` is an operation of the external octree
container (`yt.geometry.oct_container`, not among the sources under
verification).  Per §4.6/§6 it scatters the per-level temporary buffer into
the final output array through the parallel index arrays: each selected cell
`j` whose recorded level equals `level` receives the source value at its file
index, written at output position `cell_indices j`. -/
def fill_level (level : Nat) (levels cell_inds file_inds : List Nat)
    (dest : List ℚ) (src : Nat → ℚ) : List ℚ :=
  (List.range levels.length).foldl
    (fun d j =>
      if levels.getD j 0 = level then d.set (cell_inds.getD j 0) (src (file_inds.getD j 0))
      else d)
    dest

theorem fill_level_length (level : Nat) (levels cell_inds file_inds : List Nat)
    (dest : List ℚ) (src : Nat → ℚ) :
    (fill_level level levels cell_inds file_inds dest src).length = dest.length := by
  rw [fill_level]
  generalize List.range levels.length = idxs
  induction idxs generalizing dest with
  | nil => rfl
  | cons j t ih =>
    rw [List.foldl_cons]
    by_cases hj : levels.getD j 0 = level
    · rw [if_pos hj, ih]
      exact List.length_set _ _ _
    · rw [if_neg hj, ih]

/-- `RAMSESDomainSubset.fill`, together with the number of `pdb.set_trace()`
debugger suspensions the source executes (second component): the loop body at
`data_structures.py:273-275` runs one `import pdb; pdb.set_trace()` after every
`read_vector` of a requested field and one more per level block after the
sub-cell loop.  The output map binds each requested field, in order, to an
array allocated with `cell_count` zeros and scattered into by `fill_level`;
levels whose offset is the `-1` sentinel are skipped.  Each `read_vector` /
`skip` consumes one record, so the record for sub-cell `i` of the `k`-th field
of a block at offset `off` sits at record position `off + i * len(all_fields)
+ k`. -/
def fill (inp : FillInput) (fields : List String) : List (String × List ℚ) × Nat :=
  let tr0 := fields.map (fun fld => (fld, List.replicate inp.cell_count (0 : ℚ)))
  (inp.offsets.enum).foldl
    (fun acc lo =>
      let level := lo.1
      let off := lo.2
      if off = -1 then acc
      else
        let nread := (inp.all_fields.filter (fun g => fields.contains g)).length
        let stops := acc.2 + 2 ^ inp.ndim * nread + 1
        let src := fun (fld : String) (fi : Nat) =>
          inp.content (off.toNat + (fi % 2 ^ inp.ndim) * inp.all_fields.length
              + inp.all_fields.indexOf fld) (fi / 2 ^ inp.ndim)
        (acc.1.map (fun pr =>
            (pr.1, fill_level level inp.levels inp.cell_inds inp.file_inds pr.2 (src pr.1))),
          stops))
    (tr0, 0)

/-- The C3 failing input: dimensionality 3, a single on-disk field
("Density") which is also the one requested, one level block present at
offset 0, and a selection matching zero cells. -/
def fillCex : FillInput :=
  { ndim := 3, all_fields := ["Density"], cell_count := 0,
    levels := [], cell_inds := [], file_inds := [],
    offsets := [0], level_counts := [4], content := fun _ _ => 0 }

/-- C3 (code bug): on `fillCex` the fill operation does produce the mapping
the claim describes — exactly the requested field, bound to an empty array for
the zero-cell selection — but it does not return it silently: the leftover
debugger calls at `data_structures.py:274` and `:275` execute `2^3` times for
the one requested field plus once for the level block, nine suspensions in
all, where the claim (and spec §4.6, §8) requires the call to return with no
error even for a zero-cell selection. -/
theorem C3_fill_pdb_stops :
    (fill fillCex ["Density"]).1 = [("Density", [])]
      ∧ (fill fillCex ["Density"]).2 = 9 := by
  constructor
  · rfl
  · rfl

end RamsesSpec
